import Mathlib

/-!
Verification of the MEGA-PRESS simulation driver `MRS/simulation/gaba_gauss1.c`.

The driver reads a shaped-pulse waveform (binary 32-bit floats), loads a spin
system, derives the sequence timing intervals from the echo time `t_te`, the
spin-echo half-interval `t_12` and the pulse duration `pw * t_dwell`, runs the
pulse sequence (90° pulse, delays, two 180° pulses, two shaped-pulse trains),
and synthesizes a 2048-point FID sampled every 0.0002 s.

The spin-operator algebra itself lives in the external GAMMA library; the
driver manipulates it only through `sigma_eq`, `Ho`, `Fm`, `prop`, `evolve`,
`Iypuls`, `Ixypuls` and `FID`.  We embed the driver's control flow over an
abstract operator algebra (`GammaOps`), and model the library's contracts
(conjugation `U·ρ·U†`, propagator construction, the FID loop) from the spec
where their code is not in the repository.
-/

/-! ## Timing constants and interval derivations (gaba_gauss1.c lines 63-69)

The C source stores these in `float`; we use exact rational arithmetic over
the same closed-form formulas.  `pw` is the number of waveform samples. -/

/-- `float t_te=0.068;` — echo time in seconds. -/
def t_te : ℚ := 68 / 1000

/-- `float t_dwell=0.000032;` — waveform dwell time in seconds. -/
def t_dwell : ℚ := 32 / 1000000

/-- `float t_12=0.006;` — spin-echo half-interval between the 90° and the
first 180° pulse. -/
def t_12 : ℚ := 6 / 1000

/-- `float t_2g1=(t_12+t_te/2)/2-t_12-pw*t_dwell/2;` -/
def t_2g1 (pw : ℕ) : ℚ := (t_12 + t_te / 2) / 2 - t_12 - pw * t_dwell / 2

/-- `float t_g13=t_te/2-t_2g1-pw*t_dwell;` -/
def t_g13 (pw : ℕ) : ℚ := t_te / 2 - t_2g1 pw - pw * t_dwell

/-- `float t_3g2=(t_te/2-t_12)/2-pw*t_dwell/2;` -/
def t_3g2 (pw : ℕ) : ℚ := (t_te / 2 - t_12) / 2 - pw * t_dwell / 2

/-- `float t_g2r=(t_te/2-t_12)-t_3g2-pw*t_dwell;` -/
def t_g2r (pw : ℕ) : ℚ := (t_te / 2 - t_12) - t_3g2 pw - pw * t_dwell

/-- Total duration of one shaped pulse: `pw*t_dwell` in the source. -/
def pulseDuration (pw : ℕ) : ℚ := pw * t_dwell

/-- C1: the claim as stated — all four intervals non-negative and
`sum + 2·T12 + 2·N·dwell = te` for N = 4 — is false: with two copies of
`t_12` the total is 0.074 s, not the 0.068 s echo time. -/
theorem intervals_closure_two_t12_false :
    ¬ (0 ≤ t_2g1 4 ∧ 0 ≤ t_g13 4 ∧ 0 ≤ t_3g2 4 ∧ 0 ≤ t_g2r 4 ∧
       t_2g1 4 + t_g13 4 + t_3g2 4 + t_g2r 4 + 2 * t_12 + 2 * 4 * t_dwell = t_te) := by
  intro h
  have := h.2.2.2.2
  norm_num [t_2g1, t_g13, t_3g2, t_g2r, t_12, t_te, t_dwell] at this

/-- C1 (amended): for the N = 4 scenario each derived interval is
non-negative and the four intervals plus a single `t_12` plus the two pulse
durations `2·N·dwell` sum exactly to the echo time. -/
theorem intervals_nonneg_and_closure :
    0 ≤ t_2g1 4 ∧ 0 ≤ t_g13 4 ∧ 0 ≤ t_3g2 4 ∧ 0 ≤ t_g2r 4 ∧
    t_2g1 4 + t_g13 4 + t_3g2 4 + t_g2r 4 + t_12 + 2 * 4 * t_dwell = t_te := by
  norm_num [t_2g1, t_g13, t_3g2, t_g2r, t_12, t_te, t_dwell]

/-! ## The driver's control flow over the GAMMA operator interface

`gen_op` values are produced and consumed only through the GAMMA calls
`sigma_eq`, `prop`, `evolve`, `Iypuls`, `Ixypuls`.  We abstract the operator
type and those five entry points; the driver's `main` is then a pure fold
over this interface.  GAMMA's `Iypuls(sys,σ,β)` is the β-degree pulse about
the y axis, i.e. transverse phase 90°; `Ixypuls(sys,σ,φ,β)` takes the phase
φ explicitly. -/

/-- The GAMMA library entry points used by `main`, over an abstract operator
type (the spin system and Hamiltonian are fixed for the whole run, so they
are absorbed into the interface). -/
structure GammaOps (Op : Type) where
  sigma_eq : Op
  prop : ℚ → Op
  evolve : Op → Op → Op
  Iypuls : Op → ℚ → Op
  Ixypuls : Op → ℚ → ℚ → Op

/-- `float angle_factor=0.24/0.24;` -/
def angle_factor : ℚ := (24 / 100) / (24 / 100)

/-- The literal `3.14159` used by the source in the flip-angle conversion. -/
def pi_approx : ℚ := 314159 / 100000

/-- `angle=rho[i]*angle_factor*180/3.14159;` — flip angle (degrees) derived
from one waveform sample. -/
def angleOf (s : ℚ) : ℚ := s * angle_factor * 180 / pi_approx

/-- The shaped-pulse loop (both occurrences, gaba_gauss1.c lines 119-126 and
131-137): for each sample, `sigma1=Ixypuls(sys,sigma1,0,angle);` then
`sigma1=evolve(sigma1,udelay_dwell);`.  `udelay_dwell` is the dwell-time
propagator computed before the loop. -/
def shapedPulseLoop {Op : Type} (G : GammaOps Op) (udelay_dwell : Op) :
    List ℚ → Op → Op
  | [], sigma1 => sigma1
  | s :: rest, sigma1 =>
      shapedPulseLoop G udelay_dwell rest
        (G.evolve (G.Ixypuls sigma1 0 (angleOf s)) udelay_dwell)

/-- The whole pulse sequence of `main` (gaba_gauss1.c lines 112-139),
from `sigma0 = sigma_eq(sys)` to the operator handed to `FID`. -/
def runSequence {Op : Type} (G : GammaOps Op) (rho : List ℚ) : Op :=
  let pw := rho.length
  let udelay1 := G.prop t_12
  let udelay2g1 := G.prop (t_2g1 pw)
  let udelayg13 := G.prop (t_g13 pw)
  let udelay3g2 := G.prop (t_3g2 pw)
  let udelayg2r := G.prop (t_g2r pw)
  let udelay_dwell := G.prop t_dwell
  let sigma0 := G.sigma_eq
  let sigma1 := G.Iypuls sigma0 90
  let sigma1 := G.evolve sigma1 udelay1
  let sigma1 := G.Iypuls sigma1 180
  let sigma1 := G.evolve sigma1 udelay2g1
  let sigma1 := shapedPulseLoop G udelay_dwell rho sigma1
  let sigma1 := G.evolve sigma1 udelayg13
  let sigma1 := G.Iypuls sigma1 180
  let sigma1 := G.evolve sigma1 udelay3g2
  let sigma1 := shapedPulseLoop G udelay_dwell rho sigma1
  G.evolve sigma1 udelayg2r

/-! ## Trace semantics

To reason about the order of operations we interpret the interface in the
free algebra of operation lists: a state is the list of density-operator
transitions applied so far, a propagator is the list of evolutions it
effects, and `evolve` appends. -/

/-- One observable transition of the density operator: an RF pulse of the
given transverse phase and flip angle (degrees), or free evolution under the
static Hamiltonian for the given duration. -/
inductive PulseOp where
  | pulse (phaseDeg angleDeg : ℚ)
  | evolveBy (t : ℚ)
  deriving DecidableEq, Repr

/-- The trace interpretation of the GAMMA interface. -/
def traceOps : GammaOps (List PulseOp) where
  sigma_eq := []
  prop t := [PulseOp.evolveBy t]
  evolve sigma1 u := sigma1 ++ u
  Iypuls sigma1 beta := sigma1 ++ [PulseOp.pulse 90 beta]
  Ixypuls sigma1 phi beta := sigma1 ++ [PulseOp.pulse phi beta]

/-- The transition list of one shaped-pulse train, as the spec describes it:
per sample in order, a rotation at phase 0° by the derived angle, then free
evolution for one dwell. -/
def shapedTrainTrace (rho : List ℚ) : List PulseOp :=
  rho.flatMap fun s => [PulseOp.pulse 0 (angleOf s), PulseOp.evolveBy t_dwell]

/-- The spec's §4.4 sequence, §4.3 body substituted for the two trains
(editing pulse #2 uses the same waveform and calibration as #1). -/
def claimedSequenceTrace (rho : List ℚ) : List PulseOp :=
  [PulseOp.pulse 90 90, PulseOp.evolveBy t_12,
   PulseOp.pulse 90 180, PulseOp.evolveBy (t_2g1 rho.length)]
  ++ shapedTrainTrace rho
  ++ [PulseOp.evolveBy (t_g13 rho.length),
      PulseOp.pulse 90 180, PulseOp.evolveBy (t_3g2 rho.length)]
  ++ shapedTrainTrace rho
  ++ [PulseOp.evolveBy (t_g2r rho.length)]

lemma shapedPulseLoop_trace (rho : List ℚ) (sigma1 : List PulseOp) :
    shapedPulseLoop traceOps (traceOps.prop t_dwell) rho sigma1 =
      sigma1 ++ shapedTrainTrace rho := by
  induction rho generalizing sigma1 with
  | nil => simp [shapedPulseLoop, shapedTrainTrace]
  | cons s rest ih =>
      rw [shapedPulseLoop, ih]
      simp [shapedTrainTrace, traceOps]

lemma runSequence_trace (rho : List ℚ) :
    runSequence traceOps rho = claimedSequenceTrace rho := by
  simp only [runSequence]
  rw [shapedPulseLoop_trace, shapedPulseLoop_trace]
  simp [claimedSequenceTrace, traceOps]

/-- C3: in the trace semantics, the sequence applied by `main` from the
equilibrium operator to the operator handed to detection is exactly:
90° pulse at phase 90°, evolution `t_12`, 180° at phase 90°, evolution
`t_2g1`, the first shaped train, evolution `t_g13`, 180° at phase 90°,
evolution `t_3g2`, the second shaped train (identical waveform and
calibration), evolution `t_g2r`. -/
theorem sequence_order_is_claimed (rho : List ℚ) :
    runSequence traceOps rho = claimedSequenceTrace rho :=
  runSequence_trace rho

/-- C7: the shaped-pulse loop on an empty waveform returns the density
operator unchanged, for any interpretation of the operator algebra, and the
elapsed pulse time `pw*t_dwell` is zero. -/
theorem empty_waveform_noop {Op : Type} (G : GammaOps Op)
    (udelay_dwell : Op) (sigma1 : Op) :
    shapedPulseLoop G udelay_dwell [] sigma1 = sigma1 ∧ pulseDuration 0 = 0 := by
  constructor
  · rfl
  · simp [pulseDuration]

/-! ## The flip-angle formula (C2)

The spec states the conversion as `s[i] * calibrationFactor * (180/π)`; the
source divides by the literal `3.14159`, not π. -/

/-- The flip-angle formula exactly as the spec words it:
`angle_i = s[i] * calibrationFactor * (180/π)`. -/
noncomputable def angleSpec (s : ℝ) : ℝ := s * (angle_factor : ℝ) * (180 / Real.pi)

/-- C2 (counterexample): at the sample value `s = 1` the angle the source
computes (dividing by the literal `3.14159`) differs from the spec's
`s * calibrationFactor * (180/π)`: equality would force `π = 3.14159`,
contradicting the irrationality of π. -/
theorem angle_formula_pi_counterexample : ((angleOf 1 : ℚ) : ℝ) ≠ angleSpec 1 := by
  intro h
  have ha : ((angleOf 1 : ℚ) : ℝ) = 180 / ((314159 : ℝ) / 100000) := by
    norm_num [angleOf, angle_factor, pi_approx]
  have hb : angleSpec 1 = 180 / Real.pi := by
    norm_num [angleSpec, angle_factor]
  rw [ha, hb] at h
  have hpi0 : Real.pi ≠ 0 := Real.pi_ne_zero
  have hpi : Real.pi = (314159 : ℝ) / 100000 := by
    field_simp at h
    linarith
  exact irrational_pi ⟨(314159 : ℚ) / 100000, by push_cast; linarith⟩

/-- C2 (amended): for every waveform, each sample is processed in order as a
rotation at phase 0° by `s[i] * angle_factor * (180/3.14159)` degrees,
immediately followed by free evolution for one dwell — rotate-then-evolve
within each step, in the trace semantics. -/
theorem shaped_pulse_step_order (rho : List ℚ) (sigma1 : List PulseOp) :
    shapedPulseLoop traceOps (traceOps.prop t_dwell) rho sigma1 =
      sigma1 ++ rho.flatMap
        (fun s => [PulseOp.pulse 0 (angleOf s), PulseOp.evolveBy t_dwell])
    ∧ ∀ s : ℚ, angleOf s = s * angle_factor * (180 / pi_approx) := by
  constructor
  · exact shapedPulseLoop_trace rho sigma1
  · intro s
    rw [angleOf, mul_div_assoc]

/-! ## The FID acquisition loop (§4.5, C4)

`FID(sigma1, detect, H, 0.0002, 2048, data)` is a GAMMA library routine whose
code is not in this repository; we model it from the spec. -/

/-- Modelled from the spec: GAMMA's `FID` routine (§4.5 Signal Synthesizer):
starting from the sequence's terminal density operator, for each of `M`
samples first record `expectationValue(rho, detect)`, then evolve `rho` by
one acquisition dwell, in that fixed order.  The expectation map, the
one-dwell evolution and the detection operator are abstract. -/
def fidModel {Op S : Type} (expectationValue : Op → Op → S)
    (evolveDwell : Op → Op) (detect : Op) : ℕ → Op → List S
  | 0, _ => []
  | M + 1, rho =>
      expectationValue rho detect ::
        fidModel expectationValue evolveDwell detect M (evolveDwell rho)

lemma fidModel_length {Op S : Type} (expectationValue : Op → Op → S)
    (evolveDwell : Op → Op) (detect : Op) :
    ∀ (M : ℕ) (rho : Op),
      (fidModel expectationValue evolveDwell detect M rho).length = M
  | 0, _ => rfl
  | M + 1, rho => by
      rw [fidModel, List.length_cons,
        fidModel_length expectationValue evolveDwell detect M]

/-- C4: the Signal Synthesizer emits exactly `M` samples; each step records
the expectation value first and evolves second; `M = 0` gives the empty
sequence and `M = 1` gives exactly the expectation value of the terminal
operator. -/
theorem fid_sample_then_evolve {Op S : Type} (expectationValue : Op → Op → S)
    (evolveDwell : Op → Op) (detect : Op) :
    (∀ (M : ℕ) (rho : Op),
        (fidModel expectationValue evolveDwell detect M rho).length = M)
    ∧ (∀ rho : Op, fidModel expectationValue evolveDwell detect 0 rho = [])
    ∧ (∀ rho : Op, fidModel expectationValue evolveDwell detect 1 rho =
        [expectationValue rho detect])
    ∧ (∀ (M : ℕ) (rho : Op),
        fidModel expectationValue evolveDwell detect (M + 1) rho =
          expectationValue rho detect ::
            fidModel expectationValue evolveDwell detect M (evolveDwell rho)) := by
  refine ⟨fidModel_length expectationValue evolveDwell detect, ?_, ?_, ?_⟩
  · intro rho; rfl
  · intro rho; rfl
  · intro M rho; rfl

/-! ## Waveform loading (gaba_gauss1.c lines 32-49, C9)

`fseek`/`ftell` give the file size `rf_size` in bytes;
`fread(rho, sizeof(float), rf_size/sizeof(float), fid)` reads
`rf_size / 4` consecutive 32-bit floats from the start of the file (no
header), and `pw = rf_size / 4` is the sample count.  We model the file as
its byte list and the IEEE-754 decoding of one 4-byte word as an abstract
function. -/

/-- Group a byte list into consecutive 4-byte words, dropping a trailing
group of fewer than 4 bytes (`fread` reads only `rf_size/4` full floats). -/
def chunk4 {beta : Type} : List beta → List (beta × beta × beta × beta)
  | b0 :: b1 :: b2 :: b3 :: rest => (b0, b1, b2, b3) :: chunk4 rest
  | _ => []

/-- The waveform as loaded by `main`: one sample per 4-byte word of the
file, in file order, under an abstract IEEE-754 single-precision decode. -/
def loadWaveform (decode : UInt8 × UInt8 × UInt8 × UInt8 → ℚ)
    (file : List UInt8) : List ℚ :=
  (chunk4 file).map decode

lemma chunk4_length {beta : Type} :
    ∀ l : List beta, (chunk4 l).length = l.length / 4
  | [] => by show (0 : ℕ) = 0 / 4; omega
  | [_] => by show (0 : ℕ) = 1 / 4; omega
  | [_, _] => by show (0 : ℕ) = 2 / 4; omega
  | [_, _, _] => by show (0 : ℕ) = 3 / 4; omega
  | _ :: _ :: _ :: _ :: rest => by
      show (chunk4 rest).length + 1 = _
      rw [chunk4_length rest]
      simp only [List.length_cons]
      omega

/-- C9: a file of `S` bytes yields exactly `S / 4` samples; the first sample
comes from the first four bytes (no header) and the rest are decoded
recursively in file order; and the sequence trace drives both editing-pulse
trains with that same sample list. -/
theorem waveform_loading (decode : UInt8 × UInt8 × UInt8 × UInt8 → ℚ)
    (file : List UInt8) :
    (loadWaveform decode file).length = file.length / 4
    ∧ (∀ (b0 b1 b2 b3 : UInt8) (rest : List UInt8),
        loadWaveform decode (b0 :: b1 :: b2 :: b3 :: rest) =
          decode (b0, b1, b2, b3) :: loadWaveform decode rest)
    ∧ (∃ pre mid post : List PulseOp,
        runSequence traceOps (loadWaveform decode file) =
          pre ++ shapedTrainTrace (loadWaveform decode file) ++ mid
              ++ shapedTrainTrace (loadWaveform decode file) ++ post) := by
  refine ⟨?_, ?_, ?_⟩
  · rw [loadWaveform, List.length_map, chunk4_length]
  · intro b0 b1 b2 b3 rest
    rfl
  · refine ⟨[PulseOp.pulse 90 90, PulseOp.evolveBy t_12, PulseOp.pulse 90 180,
      PulseOp.evolveBy (t_2g1 (loadWaveform decode file).length)],
      [PulseOp.evolveBy (t_g13 (loadWaveform decode file).length),
       PulseOp.pulse 90 180,
       PulseOp.evolveBy (t_3g2 (loadWaveform decode file).length)],
      [PulseOp.evolveBy (t_g2r (loadWaveform decode file).length)], ?_⟩
    rw [runSequence_trace]
    simp [claimedSequenceTrace]

/-! ## The full pipeline (C8, C10)

`block_1D data(2048); FID(sigma1, detect, H, 0.0002, 2048, data);` -/

/-- `2048` — the acquisition sample count passed to `FID` and the size of
`data`. -/
def acq_npts : ℕ := 2048

/-- `0.0002` — the acquisition dwell time passed to `FID`, in seconds. -/
def acq_dwell : ℚ := 2 / 10000

/-- The whole run of `main` after the waveform is loaded: the pulse sequence
from equilibrium followed by the modelled `FID` acquisition of `acq_npts`
samples. -/
def pipelineSignal {Op S : Type} (G : GammaOps Op)
    (expectationValue : Op → Op → S) (evolveAcqDwell : Op → Op) (detect : Op)
    (decode : UInt8 × UInt8 × UInt8 × UInt8 → ℚ) (file : List UInt8) :
    List S :=
  fidModel expectationValue evolveAcqDwell detect acq_npts
    (runSequence G (loadWaveform decode file))

/-- C8: the pipeline is a pure function of its inputs — two runs on equal
decoders and equal waveform files give equal Signal sequences, and in
particular the sequence (whose second half is the second shaped-pulse train)
yields the same terminal density operator. -/
theorem pipeline_deterministic {Op S : Type} (G : GammaOps Op)
    (expectationValue : Op → Op → S) (evolveAcqDwell : Op → Op) (detect : Op)
    (d1 d2 : UInt8 × UInt8 × UInt8 × UInt8 → ℚ) (f1 f2 : List UInt8)
    (h : d1 = d2 ∧ f1 = f2) :
    pipelineSignal G expectationValue evolveAcqDwell detect d1 f1 =
      pipelineSignal G expectationValue evolveAcqDwell detect d2 f2
    ∧ runSequence G (loadWaveform d1 f1) = runSequence G (loadWaveform d2 f2) := by
  obtain ⟨h1, h2⟩ := h
  subst h1
  subst h2
  exact ⟨rfl, rfl⟩

theorem pipeline_deterministic_witness :
    ((fun _ : UInt8 × UInt8 × UInt8 × UInt8 => (0 : ℚ)) =
        (fun _ => (0 : ℚ)) ∧ ([] : List UInt8) = [])
    ∧ (pipelineSignal traceOps (fun _ _ => (0 : ℚ)) id [] (fun _ => 0) [] =
        pipelineSignal traceOps (fun _ _ => (0 : ℚ)) id [] (fun _ => 0) []
      ∧ runSequence traceOps (loadWaveform (fun _ => 0) []) =
          runSequence traceOps (loadWaveform (fun _ => 0) [])) :=
  ⟨⟨rfl, rfl⟩,
    pipeline_deterministic traceOps (fun _ _ => (0 : ℚ)) id []
      (fun _ => 0) (fun _ => 0) [] [] ⟨rfl, rfl⟩⟩

/-- C10: for every interpretation of the operator algebra, every decoder and
every waveform file, the emitted Signal has exactly 2048 samples; the sample
count and the acquisition dwell are the fixed constants `2048` and
`0.0002 s`, independent of the inputs. -/
theorem signal_length_fixed {Op S : Type} (G : GammaOps Op)
    (expectationValue : Op → Op → S) (evolveAcqDwell : Op → Op) (detect : Op)
    (decode : UInt8 × UInt8 × UInt8 × UInt8 → ℚ) (file : List UInt8) :
    (pipelineSignal G expectationValue evolveAcqDwell detect decode file).length
        = 2048
    ∧ acq_npts = 2048 ∧ acq_dwell = 2 / 10000 := by
  refine ⟨?_, rfl, rfl⟩
  rw [pipelineSignal, fidModel_length]
  rfl

/-! ## The Propagator Engine's contracts (§4.2, C5 and C6)

`evolve` and `prop` are GAMMA library code not in this repository; we model
them from the spec over concrete complex matrices. -/

open Matrix

/-- Modelled from the spec: GAMMA's `evolve(sigma, U)` — called `apply` in
§4.2 — whose code is not in this repository, returns the conjugation
`U · ρ · U†`. -/
noncomputable def applyU {m : ℕ} (U rho : Matrix (Fin m) (Fin m) ℂ) :
    Matrix (Fin m) (Fin m) ℂ :=
  U * rho * Uᴴ

/-- C5: `apply(U, rho)` is the conjugation `U · ρ · U†`; for unitary `U` it
preserves the trace, and it preserves Hermiticity of `rho`. -/
theorem apply_conjugation_trace_hermitian {m : ℕ}
    (U rho : Matrix (Fin m) (Fin m) ℂ)
    (hU : U * Uᴴ = 1 ∧ Uᴴ * U = 1) (hH : rho.IsHermitian) :
    applyU U rho = U * rho * Uᴴ
    ∧ (applyU U rho).trace = rho.trace
    ∧ (applyU U rho).IsHermitian := by
  refine ⟨rfl, ?_, ?_⟩
  · rw [applyU, Matrix.trace_mul_cycle, hU.2, Matrix.one_mul]
  · show (U * rho * Uᴴ)ᴴ = U * rho * Uᴴ
    rw [Matrix.conjTranspose_mul, Matrix.conjTranspose_mul,
      Matrix.conjTranspose_conjTranspose, hH.eq, ← Matrix.mul_assoc]

theorem apply_conjugation_trace_hermitian_witness :
    (((1 : Matrix (Fin 1) (Fin 1) ℂ) * (1 : Matrix (Fin 1) (Fin 1) ℂ)ᴴ = 1
        ∧ (1 : Matrix (Fin 1) (Fin 1) ℂ)ᴴ * 1 = 1)
      ∧ (1 : Matrix (Fin 1) (Fin 1) ℂ).IsHermitian)
    ∧ (applyU (1 : Matrix (Fin 1) (Fin 1) ℂ) 1 = 1 * 1 * (1 : Matrix (Fin 1) (Fin 1) ℂ)ᴴ
       ∧ (applyU (1 : Matrix (Fin 1) (Fin 1) ℂ) 1).trace
           = (1 : Matrix (Fin 1) (Fin 1) ℂ).trace
       ∧ (applyU (1 : Matrix (Fin 1) (Fin 1) ℂ) 1).IsHermitian) :=
  ⟨⟨⟨by simp, by simp⟩, Matrix.isHermitian_one⟩,
    apply_conjugation_trace_hermitian 1 1 ⟨by simp, by simp⟩
      Matrix.isHermitian_one⟩

/-- Error taxonomy of propagator construction (spec §7). -/
inductive PropError where
  | invalidArgument
  deriving DecidableEq, Repr

/-- Modelled from the spec: GAMMA's `prop(H, t)` — `freePrecessionPropagator`
in §4.2 — whose code is not in this repository: the matrix exponential of
`-i·H·t`, the identity at `t = 0`, failing with `InvalidArgument` for
`t < 0`. -/
noncomputable def freePrecessionPropagator {m : ℕ}
    (H : Matrix (Fin m) (Fin m) ℂ) (t : ℚ) :
    Except PropError (Matrix (Fin m) (Fin m) ℂ) :=
  if t < 0 then Except.error PropError.invalidArgument
  else Except.ok (NormedSpace.exp ℂ ((-(Complex.I * (t : ℂ))) • H))

/-- C6: the free-precession propagator at duration 0 is the identity
operator, and for every strictly negative duration the construction fails
with `InvalidArgument` instead of returning a propagator. -/
theorem prop_zero_identity_and_neg_fails {m : ℕ}
    (H : Matrix (Fin m) (Fin m) ℂ) :
    freePrecessionPropagator H 0 = Except.ok 1
    ∧ ∀ t : ℚ, t < 0 →
        freePrecessionPropagator H t = Except.error PropError.invalidArgument := by
  constructor
  · rw [freePrecessionPropagator, if_neg (by norm_num)]
    norm_num [NormedSpace.exp_zero]
  · intro t ht
    rw [freePrecessionPropagator, if_pos ht]

theorem prop_zero_identity_and_neg_fails_witness :
    ((-1 : ℚ) < 0)
    ∧ freePrecessionPropagator (0 : Matrix (Fin 1) (Fin 1) ℂ) 0 = Except.ok 1
    ∧ freePrecessionPropagator (0 : Matrix (Fin 1) (Fin 1) ℂ) (-1)
        = Except.error PropError.invalidArgument :=
  ⟨by norm_num,
   (prop_zero_identity_and_neg_fails (0 : Matrix (Fin 1) (Fin 1) ℂ)).1,
   (prop_zero_identity_and_neg_fails (0 : Matrix (Fin 1) (Fin 1) ℂ)).2 (-1)
     (by norm_num)⟩
